import Mathlib

/-!
Verification of the `setup.py` package descriptor of PEAK-Rules.

The document read by `get_description` is modelled as the list of its lines,
each line a `String` carrying its trailing newline, exactly as Python's file
iteration yields them.  The functions below are shallow embeddings of the
Python source:

  * `pyIsSpace` / `pyStrip` model `str.strip()` (a string is falsy in
    `if not line.strip()` iff stripping leaves it empty);
  * `pyStartswith` models `str.startswith`;
  * `skipHeader` is the first `for` loop of `get_description` (it consumes
    lines up to and including the first blank line, returning the lines the
    iterator has not yet yielded);
  * `readBody` is the second `for` loop: it returns the collected lines and
    the lines left unread on the handle (the marker line is consumed by the
    iterator but not collected);
  * `get_description` is `''.join(lines)` of the collected body;
  * `FileHandle` / `get_description_run` replay the same computation with the
    file handle's state made explicit, so that the open/scan/close shape of
    the source is visible;
  * `get_description_io` makes the fallible `file('README.txt')` call
    explicit: `none` is a missing or unreadable file.
-/

/-- Whitespace characters recognised by Python's `str.strip()` (ASCII part). -/
def pyIsSpace (c : Char) : Bool :=
  c == ' ' || c == '\t' || c == '\n' || c == '\r' || c == '\x0b' || c == '\x0c'

/-- Python `line.strip()`: drop leading and trailing whitespace. -/
def pyStrip (s : String) : String :=
  ⟨(((s.data.dropWhile pyIsSpace).reverse.dropWhile pyIsSpace).reverse)⟩

/-- Does `pat` occur at the head of `l`? -/
def startsWithChars : List Char → List Char → Bool
  | [], _ => true
  | _ :: _, [] => false
  | p :: ps, c :: cs => p == c && startsWithChars ps cs

/-- Python `line.startswith(pat)`. -/
def pyStartswith (line pat : String) : Bool :=
  startsWithChars pat.data line.data

/-- Python `''.join(lines)`. -/
def strJoin : List String → String
  | [] => ""
  | s :: rest => s ++ strJoin rest

/-- First loop of `get_description`: `for line in f: if not line.strip(): break`.
Returns the lines the iterator has not yet consumed (everything after the
first blank line; `[]` if no line is blank). -/
def skipHeader : List String → List String
  | [] => []
  | line :: rest => if pyStrip line = "" then rest else skipHeader rest

/-- Second loop of `get_description`:
`for line in f: if line.startswith('.. contents::'): break; lines.append(line)`.
Returns the collected lines together with the lines still unread. -/
def readBody : List String → List String × List String
  | [] => ([], [])
  | line :: rest =>
    if pyStartswith line ".. contents::" then ([], rest)
    else
      let r := readBody rest
      (line :: r.1, r.2)

/-- `get_description()` from `setup.py`, as a function of the document's lines. -/
def get_description (doc : List String) : String :=
  strJoin (readBody (skipHeader doc)).1

/-- A Python file handle: the lines not yet yielded by iteration, and whether
the handle is still open. -/
structure FileHandle where
  remaining : List String
  isOpen : Bool
  deriving Repr, DecidableEq

/-- `file('README.txt')` on a document that exists: an open handle at line 0. -/
def fileOpen (doc : List String) : FileHandle :=
  { remaining := doc, isOpen := true }

/-- `f.close()`. -/
def fileClose (f : FileHandle) : FileHandle :=
  { f with isOpen := false }

/-- The first loop acting on the handle. -/
def skipHeaderH (f : FileHandle) : FileHandle :=
  { f with remaining := skipHeader f.remaining }

/-- The second loop acting on the handle: collected lines plus updated handle. -/
def readBodyH (f : FileHandle) : List String × FileHandle :=
  ((readBody f.remaining).1, { f with remaining := (readBody f.remaining).2 })

/-- `get_description()` with the file handle's lifecycle explicit: open, skip
the header, read the body, close, return the joined body together with the
final handle state. -/
def get_description_run (doc : List String) : String × FileHandle :=
  let f0 := fileOpen doc
  let f1 := skipHeaderH f0
  let bf := readBodyH f1
  let f2 := fileClose bf.2
  (strJoin bf.1, f2)

/-- `get_description()` with the fallible `file('README.txt')` call explicit:
`none` models a missing or unreadable `README.txt`, on which `file` raises an
`IOError` that the function does not catch; a readable document always
produces a result. -/
def get_description_io (readme : Option (List String)) : Except String String :=
  match readme with
  | none => Except.error "IOError: cannot open README.txt"
  | some doc => Except.ok (get_description doc)

/-- The filesystem as far as `setup.py` observes it: the content of
`README.txt`. -/
structure World where
  readme : List String
  deriving Repr, DecidableEq

/-- One run of `get_description` against the filesystem.  The function only
reads `README.txt` (open, scan, close), so the world it returns is the world
it was given. -/
def get_description_w (w : World) : String × World :=
  ((get_description_run w.readme).1, w)

-- Metadata literals of `setup.py`.

def PACKAGE_NAME : String := "PEAK-Rules"

def PACKAGE_VERSION : String := "0.1"

def PACKAGES : List String := ["peak", "peak.rules"]

/-- The `install_requires` argument of the `setup()` call. -/
def install_requires : List String :=
  ["BytecodeAssembler>=0.0.2.dev-r2188", "DecoratorTools>=1.0"]

/-! ### Helper lemmas about the two scanning loops -/

theorem skipHeader_append (header : List String) (b : String) (rest : List String)
    (hh : ∀ l ∈ header, pyStrip l ≠ "") (hb : pyStrip b = "") :
    skipHeader (header ++ b :: rest) = rest := by
  induction header with
  | nil => simp [skipHeader, hb]
  | cons a t ih =>
    simp only [List.cons_append, skipHeader]
    rw [if_neg (hh a (List.mem_cons_self a t))]
    exact ih fun l hl => hh l (List.mem_cons_of_mem a hl)

theorem skipHeader_eq_nil (doc : List String) (h : ∀ l ∈ doc, pyStrip l ≠ "") :
    skipHeader doc = [] := by
  induction doc with
  | nil => rfl
  | cons a t ih =>
    simp only [skipHeader]
    rw [if_neg (h a (List.mem_cons_self a t))]
    exact ih fun l hl => h l (List.mem_cons_of_mem a hl)

theorem readBody_fst_append (body : List String) (m : String) (tr : List String)
    (hb : ∀ l ∈ body, pyStartswith l ".. contents::" = false)
    (hm : pyStartswith m ".. contents::" = true) :
    (readBody (body ++ m :: tr)).1 = body := by
  induction body with
  | nil => simp [readBody, hm]
  | cons a t ih =>
    have ha := hb a (List.mem_cons_self a t)
    simp only [List.cons_append, readBody, ha, Bool.false_eq_true, if_false]
    simp [ih fun l hl => hb l (List.mem_cons_of_mem a hl)]

theorem readBody_fst_no_marker (rest : List String)
    (h : ∀ l ∈ rest, pyStartswith l ".. contents::" = false) :
    (readBody rest).1 = rest := by
  induction rest with
  | nil => rfl
  | cons a t ih =>
    have ha := h a (List.mem_cons_self a t)
    simp only [readBody, ha, Bool.false_eq_true, if_false]
    simp [ih fun l hl => h l (List.mem_cons_of_mem a hl)]

theorem pyStrip_eq_empty (s : String) (h : ∀ c ∈ s.data, pyIsSpace c = true) :
    pyStrip s = "" := by
  unfold pyStrip
  rw [List.dropWhile_eq_nil_iff.mpr h]
  rfl

theorem mem_dropWhile_of_not_space {p : Char → Bool} {c : Char} (hp : p c = false) :
    ∀ l : List Char, c ∈ l → c ∈ l.dropWhile p := by
  intro l hl
  induction l with
  | nil => cases hl
  | cons a t ih =>
    by_cases ha : p a
    · rw [List.dropWhile_cons_of_pos ha]
      rcases List.mem_cons.mp hl with h | h
      · subst h; rw [hp] at ha; exact Bool.noConfusion ha
      · exact ih h
    · rw [List.dropWhile_cons_of_neg ha]
      exact hl

theorem pyStrip_ne_empty {s : String} {c : Char} (hc : c ∈ s.data)
    (hp : pyIsSpace c = false) : pyStrip s ≠ "" := by
  intro h
  have hdata : ((s.data.dropWhile pyIsSpace).reverse.dropWhile pyIsSpace).reverse = [] := by
    have h2 := congrArg String.data h
    simpa [pyStrip] using h2
  have h3 : (s.data.dropWhile pyIsSpace).reverse.dropWhile pyIsSpace = [] := by
    simpa using congrArg List.reverse hdata
  have h4 := List.dropWhile_eq_nil_iff.mp h3
  have hcmem : c ∈ s.data.dropWhile pyIsSpace := mem_dropWhile_of_not_space hp _ hc
  have h5 := h4 c (List.mem_reverse.mpr hcmem)
  rw [hp] at h5
  exact Bool.noConfusion h5

theorem startsWithChars_head {p : Char} {ps l : List Char}
    (h : startsWithChars (p :: ps) l = true) : ∃ t, l = p :: t := by
  cases l with
  | nil => exact Bool.noConfusion h
  | cons c cs =>
    simp only [startsWithChars, Bool.and_eq_true, beq_iff_eq] at h
    exact ⟨cs, by rw [h.1]⟩

theorem pyStartswith_contents_nonblank {m : String}
    (hm : pyStartswith m ".. contents::" = true) : pyStrip m ≠ "" := by
  have hm' : startsWithChars ('.' :: ". contents::".data) m.data = true := hm
  obtain ⟨t, ht⟩ := startsWithChars_head hm'
  exact pyStrip_ne_empty (ht ▸ List.mem_cons_self '.' t) (by decide)

/-! ### The claims -/

/-- C1: For a document made of a non-blank header block, a first blank line,
body lines, a line beginning with `.. contents::`, and trailing content,
`get_description` returns exactly the body lines joined in order, excluding
the marker line and everything after it. -/
theorem get_description_extracts_body (header : List String) (b : String)
    (body : List String) (m : String) (trailing : List String)
    (hh : ∀ l ∈ header, pyStrip l ≠ "")
    (hb : pyStrip b = "")
    (hbody : ∀ l ∈ body, pyStartswith l ".. contents::" = false)
    (hm : pyStartswith m ".. contents::" = true) :
    get_description (header ++ b :: (body ++ m :: trailing)) = strJoin body := by
  unfold get_description
  rw [skipHeader_append header b _ hh hb, readBody_fst_append body m trailing hbody hm]

/-- Witness for C1 on a concrete document. -/
theorem get_description_extracts_body_witness :
    get_description (["Title\n"] ++ "\n" ::
        (["Body one\n", "Body two\n"] ++ ".. contents:: Table of Contents\n" :: ["after\n"]))
      = strJoin ["Body one\n", "Body two\n"] :=
  get_description_extracts_body ["Title\n"] "\n" ["Body one\n", "Body two\n"]
    ".. contents:: Table of Contents\n" ["after\n"]
    (by decide) (by decide) (by decide) (by decide)

/-- C2: On a document with no blank line at all, `get_description` scans to
end-of-input and returns the empty string. -/
theorem get_description_no_blank_line (doc : List String)
    (h : ∀ l ∈ doc, pyStrip l ≠ "") :
    get_description doc = "" := by
  unfold get_description
  rw [skipHeader_eq_nil doc h]
  rfl

/-- Witness for C2 on a concrete document. -/
theorem get_description_no_blank_line_witness :
    get_description ["Alpha\n", "Beta\n", ".. contents::\n", "Gamma\n"] = "" :=
  get_description_no_blank_line ["Alpha\n", "Beta\n", ".. contents::\n", "Gamma\n"] (by decide)

/-- C3: On a document with a first blank line but no line beginning with
`.. contents::` after it, `get_description` returns all lines after the blank
line, unmodified and in order. -/
theorem get_description_no_marker (header : List String) (b : String) (rest : List String)
    (hh : ∀ l ∈ header, pyStrip l ≠ "") (hb : pyStrip b = "")
    (hr : ∀ l ∈ rest, pyStartswith l ".. contents::" = false) :
    get_description (header ++ b :: rest) = strJoin rest := by
  unfold get_description
  rw [skipHeader_append header b rest hh hb, readBody_fst_no_marker rest hr]

/-- Witness for C3 on a concrete document. -/
theorem get_description_no_marker_witness :
    get_description (["Title\n"] ++ "\n" :: ["one\n", "two\n", "three\n"])
      = strJoin ["one\n", "two\n", "three\n"] :=
  get_description_no_marker ["Title\n"] "\n" ["one\n", "two\n", "three\n"]
    (by decide) (by decide) (by decide)

/-- C4: The document consisting of exactly one blank line yields the empty
string. -/
theorem get_description_single_blank_line : get_description ["\n"] = "" := by decide

/-- C5: The handle opened by `get_description` is closed in the final state of
every run, and the run computes the same result as the pure extraction: the
open/scan/close sequence in `get_description_run` is straight-line, so the
close is unconditional. -/
theorem get_description_run_closes (doc : List String) :
    ((get_description_run doc).2.isOpen = false) ∧
    ((get_description_run doc).1 = get_description doc) :=
  ⟨rfl, rfl⟩

/-- C6: `get_description_io` signals an error exactly when the document cannot
be opened (`none`); every successfully opened document, however malformed,
yields `ok` with the extracted description. -/
theorem get_description_io_error_iff (readme : Option (List String)) :
    ((∃ e, get_description_io readme = Except.error e) ↔ readme = none) ∧
    (∀ doc : List String, get_description_io (some doc) = Except.ok (get_description doc)) := by
  refine ⟨⟨?_, ?_⟩, fun doc => rfl⟩
  · rintro ⟨e, he⟩
    cases readme with
    | none => rfl
    | some doc => exact Except.noConfusion he
  · rintro rfl
    exact ⟨"IOError: cannot open README.txt", rfl⟩

/-- C7: Running `get_description` twice against the same filesystem yields
identical output: a run leaves the world unchanged, the second run returns the
same string as the first, and the result depends only on the document's
content. -/
theorem get_description_w_idempotent (w : World) :
    ((get_description_w ((get_description_w w).2)).1 = (get_description_w w).1) ∧
    ((get_description_w w).2 = w) ∧
    ((get_description_w w).1 = get_description w.readme) :=
  ⟨rfl, rfl, rfl⟩

/-- C8: `install_requires` declares exactly two dependencies, each of the form
name `>=` minimum version: the bytecode-assembly package `BytecodeAssembler`
and the decorator tooling package `DecoratorTools`, and no others. -/
theorem install_requires_exactly_two :
    install_requires.length = 2 ∧
    install_requires =
      ["BytecodeAssembler" ++ ">=" ++ "0.0.2.dev-r2188", "DecoratorTools" ++ ">=" ++ "1.0"] := by
  constructor
  · rfl
  · decide

/-- C9: a line beginning with `.. contents::` that occurs before the first
blank line does not terminate collection and does not appear in the output: it
is consumed with the skipped header, so the extraction result is the same as
for the document without it. -/
theorem marker_before_blank_ignored (h1 : List String) (m : String) (h2 : List String)
    (b : String) (rest : List String)
    (hm : pyStartswith m ".. contents::" = true)
    (hh1 : ∀ l ∈ h1, pyStrip l ≠ "")
    (hh2 : ∀ l ∈ h2, pyStrip l ≠ "")
    (hb : pyStrip b = "") :
    get_description (h1 ++ m :: (h2 ++ b :: rest))
      = get_description ((h1 ++ h2) ++ b :: rest) := by
  have hmb := pyStartswith_contents_nonblank hm
  have hA : ∀ l ∈ h1 ++ m :: h2, pyStrip l ≠ "" := by
    intro l hl
    rcases List.mem_append.mp hl with h | h
    · exact hh1 l h
    · rcases List.mem_cons.mp h with h | h
      · subst h; exact hmb
      · exact hh2 l h
  have hB : ∀ l ∈ h1 ++ h2, pyStrip l ≠ "" := by
    intro l hl
    rcases List.mem_append.mp hl with h | h
    · exact hh1 l h
    · exact hh2 l h
  have e1 : h1 ++ m :: (h2 ++ b :: rest) = (h1 ++ m :: h2) ++ b :: rest := by simp
  unfold get_description
  rw [e1, skipHeader_append _ b rest hA hb, skipHeader_append _ b rest hB hb]

/-- Witness for C9 on a concrete document with a marker line inside the
header. -/
theorem marker_before_blank_ignored_witness :
    get_description (["Title\n"] ++ ".. contents::\n" :: (["More\n"] ++ "\n" :: ["body\n"]))
      = get_description ((["Title\n"] ++ ["More\n"]) ++ "\n" :: ["body\n"]) :=
  marker_before_blank_ignored ["Title\n"] ".. contents::\n" ["More\n"] "\n" ["body\n"]
    (by decide) (by decide) (by decide) (by decide)

/-- C10: a line of only whitespace characters counts as the first blank line,
because `line.strip()` empties it: header skipping ends exactly there, and the
extraction continues with the lines after it. -/
theorem whitespace_line_ends_header (header : List String) (w : String) (rest : List String)
    (hh : ∀ l ∈ header, pyStrip l ≠ "")
    (hw : ∀ c ∈ w.data, pyIsSpace c = true) :
    skipHeader (header ++ w :: rest) = rest ∧
    get_description (header ++ w :: rest) = strJoin (readBody rest).1 := by
  have hb : pyStrip w = "" := pyStrip_eq_empty w hw
  refine ⟨skipHeader_append header w rest hh hb, ?_⟩
  unfold get_description
  rw [skipHeader_append header w rest hh hb]

/-- Witness for C10 on a concrete document whose header ends at a line of a
space and a tab with no newline. -/
theorem whitespace_line_ends_header_witness :
    skipHeader (["Heading\n"] ++ " \t" :: ["data\n"]) = ["data\n"] ∧
    get_description (["Heading\n"] ++ " \t" :: ["data\n"]) = strJoin (readBody ["data\n"]).1 :=
  whitespace_line_ends_header ["Heading\n"] " \t" ["data\n"] (by decide) (by decide)
